import Mathlib

/-!
Verification of the analysis-retrieval and metric-normalization pipeline of
`dashboard_analysis.py` (GitHub trends dashboard).

The pipeline's data values are embedded shallowly:

* A pandas numeric cell is `FloatVal`: either a finite rational, `nan`
  (covering both a stored null and an IEEE NaN, which pandas identifies),
  or a signed infinity.  IEEE comparison and division semantics on these
  values are given explicitly where the source relies on them.
* A DataFrame row / MongoDB document is `RepositoryAnalysisRecord`,
  carrying every column the source reads or writes.  Optional string
  fields model nullable columns / possibly-missing document keys.
* `round` here is Mathlib's round-half-up on rationals; numpy rounds
  half-to-even on binary floats.  No claim below depends on the direction
  of an exact tie, so the two agree on every value appearing in a claim.
-/

/-- A numeric cell of the DataFrame: finite rational, NaN (also modelling a
stored null, which pandas coerces to NaN in a numeric column), or ±∞. -/
inductive FloatVal where
  | nan : FloatVal
  | inf : FloatVal
  | neginf : FloatVal
  | num : ℚ → FloatVal
deriving DecidableEq, Repr

/-- One analysis document / DataFrame row, with the columns
`dashboard_analysis.py` reads or writes. -/
structure RepositoryAnalysisRecord where
  full_name : Option String
  author : Option String
  description : Option String
  url : Option String
  category : Option String
  start_stars : FloatVal
  end_stars : FloatVal
  star_growth : FloatVal
  growth_per_day : FloatVal
  growth_percent : FloatVal
  analysis_date : Option String
  analysis_period_days : Option Int
  analysis_start_date : Option String
  analysis_end_date : Option String
deriving DecidableEq, Repr

/-- `df[col].fillna(0)`: nulls/NaN become 0. -/
def fillna0 : FloatVal → FloatVal
  | .nan => .num 0
  | v => v

/-- `df[col].replace([float('inf'), float('-inf')], 0)`. -/
def replaceInf0 : FloatVal → FloatVal
  | .inf => .num 0
  | .neginf => .num 0
  | v => v

/-- `round(q, 2)` on a rational value (2-decimal rounding). -/
def pyRound2 (q : ℚ) : ℚ := (round (q * 100) : ℤ) / 100

/-- `round(q, 1)` on a rational value (1-decimal rounding). -/
def pyRound1 (q : ℚ) : ℚ := (round (q * 10) : ℤ) / 10

/-- `df[col].round(2)` lifted to a cell; non-finite cells are unchanged. -/
def round2 : FloatVal → FloatVal
  | .num q => .num (pyRound2 q)
  | v => v

/-- Truncation toward zero, the semantics of `astype(int)` on a finite float. -/
def ratTrunc (q : ℚ) : ℤ := if 0 ≤ q then ⌊q⌋ else ⌈q⌉

/-- `df[col].astype(int)` lifted to a cell.  In the source this line always
runs after `fillna(0)` and the infinity replacement, so only finite cells
reach it; the non-finite branches are never exercised by the pipeline. -/
def castInt : FloatVal → FloatVal
  | .num q => .num ((ratTrunc q : ℤ) : ℚ)
  | v => v

/-- The column pipeline of `format_metrics` for `growth_percent` and
`growth_per_day` (lines 99-108): fillna(0), replace(±inf, 0), round(2). -/
def sanitizeFloat (v : FloatVal) : FloatVal := round2 (replaceInf0 (fillna0 v))

/-- The column pipeline of `format_metrics` for `start_stars`, `end_stars`
and `star_growth` (lines 111-117): fillna(0), replace(±inf, 0), astype(int). -/
def sanitizeStar (v : FloatVal) : FloatVal := castInt (replaceInf0 (fillna0 v))

/-- The effect of `format_metrics` on one row: each of the five numeric
columns is sanitized, every other column is untouched. -/
def sanitizeRecord (r : RepositoryAnalysisRecord) : RepositoryAnalysisRecord :=
  { r with
    growth_percent := sanitizeFloat r.growth_percent
    growth_per_day := sanitizeFloat r.growth_per_day
    start_stars := sanitizeStar r.start_stars
    end_stars := sanitizeStar r.end_stars
    star_growth := sanitizeStar r.star_growth }

/-- `format_metrics(df)` (`dashboard_analysis.py` lines 90-119).  The
`df is None` / `df.empty` early returns and the column-presence checks are
identities in this model: mapping over the empty list is the empty list and
every row carries all five columns. -/
def format_metrics (df : List RepositoryAnalysisRecord) : List RepositoryAnalysisRecord :=
  df.map sanitizeRecord

/-- A cell holding a finite number. -/
def FloatVal.isFinite : FloatVal → Prop
  | .num _ => True
  | _ => False

instance (v : FloatVal) : Decidable v.isFinite := by
  cases v <;> simp [FloatVal.isFinite] <;> infer_instance

/-! ## Merge Stage (`get_latest_analysis`, lines 62-70)

The Python loop walks the retrieved documents and executes
`repo_analysis['category'] = ...` on each one: a field assignment on the
very dicts held in `latest_analysis`.  `mergeCategories` computes, per
document, the result of that assignment, i.e. the state of the retrieved
batch once the loop has run (the loop mutates in place, so the retrieved
batch and the merged batch are the same records). -/

/-- The category a document ends up with: `repo_categories[full_name]` when
the name is a key of the index (the stored value may itself be null, since
the index is built with `repo.get('category')`), else `None`.  A document
lacking `full_name` falls into the `else` branch (`None in dict` is false). -/
def mergedCategory (idx : List (String × Option String))
    (d : RepositoryAnalysisRecord) : Option String :=
  match d.full_name with
  | some name =>
    match idx.lookup name with
    | some cat => cat
    | none => none
  | none => none

/-- State of the analysis batch after the merge loop of
`get_latest_analysis` (lines 62-68). -/
def mergeCategories (batch : List RepositoryAnalysisRecord)
    (idx : List (String × Option String)) : List RepositoryAnalysisRecord :=
  batch.map fun d => { d with category := mergedCategory idx d }

/-! ## `convert_analysis_to_dataframe` (lines 72-88)

`pd.DataFrame(analysis_data)` keeps one row per document; the four
metadata columns are then assigned wholesale from the first document's
values (`first_doc.get(...)`, `None` when the key is absent), overwriting
whatever each row carried. -/

/-- `convert_analysis_to_dataframe(analysis_data)`: `None` for an empty
input (`if not analysis_data`), otherwise every row's four metadata fields
are replaced by the first document's values. -/
def convert_analysis_to_dataframe (docs : List RepositoryAnalysisRecord) :
    Option (List RepositoryAnalysisRecord) :=
  match docs with
  | [] => none
  | first :: _ =>
    some (docs.map fun d =>
      { d with
        analysis_date := first.analysis_date
        analysis_period_days := first.analysis_period_days
        analysis_start_date := first.analysis_start_date
        analysis_end_date := first.analysis_end_date })

/-! ## Filter Stage (`main`, lines 240-301) -/

/-- Python `str.lower` (ASCII data; the categories in this store are ASCII
labels, on which per-character `Char.toLower` agrees with Python). -/
def pyLower (s : String) : String := String.mk (s.data.map Char.toLower)

/-- Python `str.capitalize`: first character upper-cased, the rest
lower-cased. -/
def pyCapitalize (s : String) : String := s.toLower.capitalize

/-- `sorted(df['category'].dropna().unique())` (line 243): the distinct
non-null categories present.  The model keeps them deduplicated but not
sorted; every use below depends only on membership and cardinality, which
sorting preserves. -/
def categoriesPresent (df : List RepositoryAnalysisRecord) : List String :=
  (df.filterMap (fun r => r.category)).dedup

/-- IEEE semantics of pandas `df[col] >= threshold` on one cell: a NaN
comparison is false, `+inf >= t` is true, `-inf >= t` is false. -/
def fge (v : FloatVal) (t : ℚ) : Bool :=
  match v with
  | .num q => t ≤ q
  | .nan => false
  | .inf => true
  | .neginf => false

/-- The three threshold filters of `main` (lines 294-301): each is applied
only when its widget value was raised above the default 0, and they apply
in sequence (logical AND). -/
def applyThresholdFilters (df : List RepositoryAnalysisRecord)
    (minGrowth : ℚ) (minStarGrowth : ℤ) (minEndStars : ℤ) :
    List RepositoryAnalysisRecord :=
  let df1 := if 0 < minGrowth
    then df.filter (fun r => fge r.growth_percent minGrowth) else df
  let df2 := if 0 < minStarGrowth
    then df1.filter (fun r => fge r.star_growth (minStarGrowth : ℚ)) else df1
  if 0 < minEndStars
    then df2.filter (fun r => fge r.end_stars (minEndStars : ℚ)) else df2

/-- The category filter of `main` (lines 243-292): the UI selections are
lower-cased (capitalize on the options followed by `.lower()` is plain
`.lower()` of the supplied string) and the filter runs only when the
selection is non-empty and strictly smaller than the set of categories
present; `df['category'].isin(sel)` is exact membership, and a null
category is never a member. -/
def applyCategoryFilter (df : List RepositoryAnalysisRecord)
    (selected : List String) : List RepositoryAnalysisRecord :=
  let cats := categoriesPresent df
  let sel := selected.map pyLower
  if selected ≠ [] ∧ selected.length < cats.length then
    df.filter (fun r =>
      match r.category with
      | some c => sel.contains c
      | none => false)
  else df

/-! ## Aggregation Stage (`main`, lines 414-434 and 465/490)

`nlargest(n, col)` with the default `keep='first'` returns the first `n`
rows of the stable descending sort by `col` (among equal keys the earlier
row of the input comes first).  `insertDesc`/`sortDesc` implement that
stable descending sort; the same sort orders the `value_counts()` entries
of the category breakdown by descending count. -/

/-- Insert `x` into `l` in front of the first element whose key does not
exceed `x`'s; an element inserted this way precedes every equal-keyed
element already in `l`, giving stability when the earlier rows are
inserted last. -/
def insertDesc {α : Type} (m : α → ℚ) (x : α) : List α → List α
  | [] => [x]
  | y :: ys => if m y ≤ m x then x :: y :: ys else y :: insertDesc m x ys

/-- Stable descending sort by the key `m`. -/
def sortDesc {α : Type} (m : α → ℚ) : List α → List α
  | [] => []
  | x :: xs => insertDesc m x (sortDesc m xs)

/-- The cell value used when a column is sorted or summed; after
normalization every cell in these columns is finite, so the default is
never reached in the pipeline. -/
def qVal : FloatVal → ℚ
  | .num q => q
  | _ => 0

/-- The two ranking metrics offered by the Top Performers section. -/
inductive TopMetric where
  | growthPercent : TopMetric
  | starGrowth : TopMetric
deriving DecidableEq, Repr

/-- The column a `TopMetric` ranks by. -/
def metricVal : TopMetric → RepositoryAnalysisRecord → ℚ
  | .growthPercent, r => qVal r.growth_percent
  | .starGrowth, r => qVal r.star_growth

/-- `df.nlargest(n, col)` with `keep='first'` (lines 465 and 490, there
with `n = 5`): the first `n` rows of the stable descending sort. -/
def topN (df : List RepositoryAnalysisRecord) (metric : TopMetric) (n : ℕ) :
    List RepositoryAnalysisRecord :=
  (sortDesc (metricVal metric) df).take n

/-- One row of the Category Breakdown table (lines 420-434). -/
structure CategoryEntry where
  category : String
  count : ℕ
  percentage : ℚ
  starFlow : ℚ
  pctStarFlow : FloatVal
deriving DecidableEq, Repr

/-- `len(filtered_df[filtered_df['category'] == c])`: how many rows carry
category `c`; the count behind `value_counts()`. -/
def countCat (df : List RepositoryAnalysisRecord) (c : String) : ℕ :=
  (df.filter (fun r => r.category = some c)).length

/-- `filtered_df.groupby('category')['star_growth'].sum()` at key `c`
(null categories are dropped by `groupby`, so only `some c` rows count). -/
def starFlowCat (df : List RepositoryAnalysisRecord) (c : String) : ℚ :=
  ((df.filter (fun r => r.category = some c)).map (fun r => qVal r.star_growth)).sum

/-- `category_stats['Star Flow'].sum()` (line 433): the star flows of the
breakdown's entries — one per distinct non-null category — summed. -/
def totalStarFlow (df : List RepositoryAnalysisRecord) : ℚ :=
  ((categoriesPresent df).map (starFlowCat df)).sum

/-- IEEE division of finite values, as a float cell: `0/0` is NaN, a
nonzero value over `0` is a signed infinity. -/
def fdiv (a b : ℚ) : FloatVal :=
  if b = 0 then
    (if a = 0 then .nan else if 0 < a then .inf else .neginf)
  else .num (a / b)

/-- `* 100` on a float cell (NaN and infinities absorb). -/
def fscale100 : FloatVal → FloatVal
  | .num q => .num (q * 100)
  | v => v

/-- `.round(1)` on a float cell (NaN and infinities absorb). -/
def fround1 : FloatVal → FloatVal
  | .num q => .num (pyRound1 q)
  | v => v

/-- One row of `category_stats` for category `c` of `df` (lines 420-434):
count and count-percentage from `value_counts()` against `len(filtered_df)`,
star flow from the groupby sum, and
`(category_stats['Star Flow'] / total_star_flow * 100).round(1)` computed
with IEEE semantics — the source has no guard on `total_star_flow`. -/
def mkCategoryEntry (df : List RepositoryAnalysisRecord) (c : String) : CategoryEntry :=
  { category := pyCapitalize c
    count := countCat df c
    percentage := pyRound1 ((countCat df c : ℚ) / (df.length : ℚ) * 100)
    starFlow := starFlowCat df c
    pctStarFlow := fround1 (fscale100 (fdiv (starFlowCat df c) (totalStarFlow df))) }

/-- The Category Breakdown table (lines 419-434): one entry per distinct
non-null category (`value_counts()` drops nulls), ordered by descending
count as `value_counts()` orders its index (stable among equal counts). -/
def categoryBreakdown (df : List RepositoryAnalysisRecord) : List CategoryEntry :=
  sortDesc (fun e => (e.count : ℚ))
    ((categoriesPresent df).map (mkCategoryEntry df))

/-! ## Concrete batches used to evaluate the definitions -/

/-- A baseline row; the concrete batches below override single fields. -/
def row0 : RepositoryAnalysisRecord :=
  { full_name := none, author := none, description := none, url := none
    category := none
    start_stars := .num 0, end_stars := .num 0, star_growth := .num 0
    growth_per_day := .num 0, growth_percent := .num 0
    analysis_date := none, analysis_period_days := none
    analysis_start_date := none, analysis_end_date := none }

/-- One categorized row with zero star growth: its category's star flow and
the total star flow are both 0. -/
def dfZeroFlow : List RepositoryAnalysisRecord :=
  [{ row0 with full_name := some "a/b", category := some "ml", star_growth := .num 0 }]

/-- Two categories whose star flows cancel: total star flow 0 with nonzero
components. -/
def dfCancelFlow : List RepositoryAnalysisRecord :=
  [{ row0 with full_name := some "a/b", category := some "ml", star_growth := .num 5 },
   { row0 with full_name := some "c/d", category := some "web", star_growth := .num (-5) }]

/-- One categorized row and one row with a null category. -/
def dfNullCat : List RepositoryAnalysisRecord :=
  [{ row0 with full_name := some "a/b", category := some "ml", star_growth := .num 3 },
   { row0 with full_name := some "c/d", category := none, star_growth := .num 7 }]

/-- Two rows with growth percents 30 and 70 (end-to-end scenario 3). -/
def row30 : RepositoryAnalysisRecord :=
  { row0 with full_name := some "a/b", growth_percent := .num 30 }

/-- The 70-percent row of end-to-end scenario 3. -/
def row70 : RepositoryAnalysisRecord :=
  { row0 with full_name := some "c/d", growth_percent := .num 70 }

/-- A row categorized "ml". -/
def rowMl : RepositoryAnalysisRecord :=
  { row0 with full_name := some "a/b", category := some "ml" }

/-- A row categorized "web". -/
def rowWeb : RepositoryAnalysisRecord :=
  { row0 with full_name := some "c/d", category := some "web" }

/-- End-to-end scenario 2's record: infinite growth percent, null star
growth. -/
def rowC6 : RepositoryAnalysisRecord :=
  { row0 with full_name := some "a/b", growth_percent := .inf, star_growth := .nan }

/-- Two rows tied at `star_growth = 100` (end-to-end scenario 4). -/
def rowX : RepositoryAnalysisRecord :=
  { row0 with full_name := some "x/x", star_growth := .num 100 }

/-- The later of the two tied rows of end-to-end scenario 4. -/
def rowY : RepositoryAnalysisRecord :=
  { row0 with full_name := some "y/y", star_growth := .num 100 }

/-- A retrieved document that already carries a category value. -/
def docOld : RepositoryAnalysisRecord :=
  { row0 with full_name := some "a/b", category := some "old" }

/-- A category index mapping `docOld`'s name to a different category. -/
def idxNew : List (String × Option String) := [("a/b", some "new")]

/-- A retrieved document lacking `full_name`. -/
def docNoName : RepositoryAnalysisRecord :=
  { row0 with full_name := none, author := some "anon" }

/-- Two documents whose metadata fields disagree (the second also misses
its period): input for `convert_analysis_to_dataframe`. -/
def docMetaA : RepositoryAnalysisRecord :=
  { row0 with
    full_name := some "a/b"
    analysis_date := some "2024-01-02"
    analysis_period_days := some 7
    analysis_start_date := some "2023-12-26"
    analysis_end_date := some "2024-01-02" }

/-- The second, disagreeing document for `convert_analysis_to_dataframe`. -/
def docMetaB : RepositoryAnalysisRecord :=
  { row0 with
    full_name := some "c/d"
    analysis_date := some "2023-11-05"
    analysis_period_days := none
    analysis_start_date := none
    analysis_end_date := some "2023-11-05" }

/-! ## Shared lemmas about rounding and sanitization -/

theorem pyRound2_zero : pyRound2 0 = 0 := by
  simp [pyRound2]

theorem pyRound2_fixed (q : ℚ) : pyRound2 (pyRound2 q) = pyRound2 q := by
  unfold pyRound2
  have h : ((round (q * 100) : ℤ) : ℚ) / 100 * 100 = ((round (q * 100) : ℤ) : ℚ) := by
    field_simp
  rw [h, round_intCast]

theorem ratTrunc_intCast (z : ℤ) : ratTrunc ((z : ℚ)) = z := by
  unfold ratTrunc
  split
  · exact Int.floor_intCast z
  · exact Int.ceil_intCast z

theorem sanitizeFloat_num (q : ℚ) : sanitizeFloat (.num q) = .num (pyRound2 q) := rfl

theorem sanitizeFloat_nan : sanitizeFloat .nan = .num 0 := by
  simp [sanitizeFloat, fillna0, replaceInf0, round2, pyRound2_zero]

theorem sanitizeFloat_inf : sanitizeFloat .inf = .num 0 := by
  simp [sanitizeFloat, fillna0, replaceInf0, round2, pyRound2_zero]

theorem sanitizeFloat_neginf : sanitizeFloat .neginf = .num 0 := by
  simp [sanitizeFloat, fillna0, replaceInf0, round2, pyRound2_zero]

theorem sanitizeFloat_idem (v : FloatVal) :
    sanitizeFloat (sanitizeFloat v) = sanitizeFloat v := by
  cases v with
  | num q => simp [sanitizeFloat_num, pyRound2_fixed]
  | nan => simp [sanitizeFloat_nan, sanitizeFloat_num, pyRound2_zero]
  | inf => simp [sanitizeFloat_inf, sanitizeFloat_num, pyRound2_zero]
  | neginf => simp [sanitizeFloat_neginf, sanitizeFloat_num, pyRound2_zero]

theorem sanitizeStar_num (q : ℚ) :
    sanitizeStar (.num q) = .num ((ratTrunc q : ℤ) : ℚ) := rfl

theorem ratTrunc_zero : ratTrunc 0 = 0 := by
  simp [ratTrunc]

theorem sanitizeStar_nan : sanitizeStar .nan = .num 0 := by
  simp [sanitizeStar, fillna0, replaceInf0, castInt, ratTrunc_zero]

theorem sanitizeStar_inf : sanitizeStar .inf = .num 0 := by
  simp [sanitizeStar, fillna0, replaceInf0, castInt, ratTrunc_zero]

theorem sanitizeStar_neginf : sanitizeStar .neginf = .num 0 := by
  simp [sanitizeStar, fillna0, replaceInf0, castInt, ratTrunc_zero]

theorem sanitizeStar_idem (v : FloatVal) :
    sanitizeStar (sanitizeStar v) = sanitizeStar v := by
  cases v with
  | num q => simp [sanitizeStar_num, ratTrunc_intCast]
  | nan => simp [sanitizeStar_nan, sanitizeStar_num, ratTrunc_zero]
  | inf => simp [sanitizeStar_inf, sanitizeStar_num, ratTrunc_zero]
  | neginf => simp [sanitizeStar_neginf, sanitizeStar_num, ratTrunc_zero]

theorem sanitizeRecord_idem (r : RepositoryAnalysisRecord) :
    sanitizeRecord (sanitizeRecord r) = sanitizeRecord r := by
  simp [sanitizeRecord, sanitizeFloat_idem, sanitizeStar_idem]

theorem sanitizeFloat_isNum (v : FloatVal) : ∃ q, sanitizeFloat v = .num q := by
  cases v with
  | num q => exact ⟨pyRound2 q, rfl⟩
  | nan => exact ⟨0, sanitizeFloat_nan⟩
  | inf => exact ⟨0, sanitizeFloat_inf⟩
  | neginf => exact ⟨0, sanitizeFloat_neginf⟩

theorem sanitizeStar_isInt (v : FloatVal) : ∃ z : ℤ, sanitizeStar v = .num z := by
  cases v with
  | num q => exact ⟨ratTrunc q, rfl⟩
  | nan => exact ⟨0, by simpa using sanitizeStar_nan⟩
  | inf => exact ⟨0, by simpa using sanitizeStar_inf⟩
  | neginf => exact ⟨0, by simpa using sanitizeStar_neginf⟩

/-! ## Claim C5 — normalization is idempotent -/

/-- C5: normalization is idempotent: `format_metrics (format_metrics df) =
format_metrics df` for every batch, and every value produced by the
sanitization rules (null → 0, ±∞ → 0, 2-decimal rounding of the float
columns, integer cast of the star columns) is a fixed point of those same
rules. -/
theorem format_metrics_idempotent :
    (∀ df : List RepositoryAnalysisRecord,
      format_metrics (format_metrics df) = format_metrics df)
    ∧ (∀ v, sanitizeFloat (sanitizeFloat v) = sanitizeFloat v)
    ∧ (∀ v, sanitizeStar (sanitizeStar v) = sanitizeStar v) := by
  refine ⟨fun df => ?_, sanitizeFloat_idem, sanitizeStar_idem⟩
  simp only [format_metrics, List.map_map]
  exact List.map_congr_left fun r _ => sanitizeRecord_idem r

/-! ## Claim C6 — normalization leaves only finite values -/

/-- C6: after normalization every one of the five numeric fields of every
record is finite; nulls and ±∞ become 0 under both sanitization pipelines,
the float fields are the 2-decimal rounding of their sanitized value, and
the star fields are integers (the truncating cast of their sanitized
value). -/
theorem format_metrics_finite :
    ∀ df : List RepositoryAnalysisRecord,
      (∀ r ∈ df, sanitizeRecord r ∈ format_metrics df)
      ∧ (∀ r ∈ format_metrics df,
          r.growth_percent.isFinite ∧ r.growth_per_day.isFinite
          ∧ r.start_stars.isFinite ∧ r.end_stars.isFinite ∧ r.star_growth.isFinite
          ∧ (∃ z : ℤ, r.start_stars = .num z)
          ∧ (∃ z : ℤ, r.end_stars = .num z)
          ∧ (∃ z : ℤ, r.star_growth = .num z))
      ∧ (sanitizeFloat .nan = .num 0 ∧ sanitizeFloat .inf = .num 0
          ∧ sanitizeFloat .neginf = .num 0
          ∧ ∀ q, sanitizeFloat (.num q) = .num (pyRound2 q))
      ∧ (sanitizeStar .nan = .num 0 ∧ sanitizeStar .inf = .num 0
          ∧ sanitizeStar .neginf = .num 0
          ∧ ∀ q, sanitizeStar (.num q) = .num ((ratTrunc q : ℤ) : ℚ)) := by
  intro df
  refine ⟨fun r hr => List.mem_map_of_mem sanitizeRecord hr, fun r hr => ?_,
    ⟨sanitizeFloat_nan, sanitizeFloat_inf, sanitizeFloat_neginf, sanitizeFloat_num⟩,
    ⟨sanitizeStar_nan, sanitizeStar_inf, sanitizeStar_neginf, sanitizeStar_num⟩⟩
  obtain ⟨r0, _, rfl⟩ := List.mem_map.1 hr
  obtain ⟨qp, hqp⟩ := sanitizeFloat_isNum r0.growth_percent
  obtain ⟨qd, hqd⟩ := sanitizeFloat_isNum r0.growth_per_day
  obtain ⟨z1, hz1⟩ := sanitizeStar_isInt r0.start_stars
  obtain ⟨z2, hz2⟩ := sanitizeStar_isInt r0.end_stars
  obtain ⟨z3, hz3⟩ := sanitizeStar_isInt r0.star_growth
  refine ⟨?_, ?_, ?_, ?_, ?_, ⟨z1, ?_⟩, ⟨z2, ?_⟩, ⟨z3, ?_⟩⟩ <;>
    simp [sanitizeRecord, hqp, hqd, hz1, hz2, hz3, FloatVal.isFinite]

/-- Witness for C6, end-to-end scenario 2: a record with infinite
`growth_percent` and null `star_growth` normalizes to finite values, with
`growth_percent = 0` and `star_growth = 0`. -/
theorem format_metrics_finite_witness :
    (sanitizeRecord rowC6 ∈ format_metrics [rowC6])
    ∧ (sanitizeRecord rowC6).growth_percent.isFinite
    ∧ (sanitizeRecord rowC6).growth_percent = .num 0
    ∧ (sanitizeRecord rowC6).star_growth = .num 0 := by
  have h := format_metrics_finite [rowC6]
  have hm : sanitizeRecord rowC6 ∈ format_metrics [rowC6] :=
    h.1 rowC6 (by simp)
  refine ⟨hm, (h.2.1 _ hm).1, ?_, ?_⟩
  · simpa [sanitizeRecord, rowC6] using h.2.2.1.2.1
  · simpa [sanitizeRecord, rowC6] using h.2.2.2.1

/-! ## Claim C10 — batch metadata is copied from the first document -/

/-- C10: for a non-empty input, `convert_analysis_to_dataframe` succeeds
and sets the four metadata fields of every row to the first document's
values — whatever the other documents carried there (differing or missing
values are silently overwritten), so metadata uniformity holds of every
converted batch by construction. -/
theorem convert_metadata_uniform :
    ∀ (docs : List RepositoryAnalysisRecord)
      (first : RepositoryAnalysisRecord) (rest : List RepositoryAnalysisRecord),
      docs = first :: rest →
      ∃ rows, convert_analysis_to_dataframe docs = some rows
        ∧ rows.length = docs.length
        ∧ ∀ row ∈ rows,
            row.analysis_date = first.analysis_date
            ∧ row.analysis_period_days = first.analysis_period_days
            ∧ row.analysis_start_date = first.analysis_start_date
            ∧ row.analysis_end_date = first.analysis_end_date := by
  rintro docs first rest rfl
  refine ⟨_, rfl, by simp [convert_analysis_to_dataframe], fun row hrow => ?_⟩
  obtain ⟨d, _, rfl⟩ := List.mem_map.1 hrow
  exact ⟨rfl, rfl, rfl, rfl⟩

/-- Witness for C10 at two documents whose metadata fields disagree (and
one of which misses its period): every converted row carries the first
document's metadata. -/
theorem convert_metadata_uniform_witness :
    ∃ rows, convert_analysis_to_dataframe [docMetaA, docMetaB] = some rows
      ∧ rows.length = 2
      ∧ ∀ row ∈ rows,
          row.analysis_date = docMetaA.analysis_date
          ∧ row.analysis_period_days = docMetaA.analysis_period_days := by
  obtain ⟨rows, h1, h2, h3⟩ :=
    convert_metadata_uniform [docMetaA, docMetaB] docMetaA [docMetaB] rfl
  exact ⟨rows, h1, h2, fun row hr => ⟨(h3 row hr).1, (h3 row hr).2.1⟩⟩

/-! ## Claim C8 — the merge stage and the retrieved documents

The claim states the retrieved documents are left unchanged (copy-on-write).
The source's merge loop executes `repo_analysis['category'] = ...` on the
retrieved dicts themselves, so after the loop the retrieved batch *is* the
merged batch: a retrieved document whose category is remapped is changed. -/

/-- Counterexample to C8: a retrieved document carrying category `"old"`
whose name the index maps to `"new"` is changed by the merge — the batch
after the merge loop differs from the retrieved batch, so the retrieved
records are not left unchanged. -/
theorem merge_changes_retrieved_records :
    mergeCategories [docOld] idxNew ≠ [docOld]
    ∧ (mergeCategories [docOld] idxNew).map (fun d => d.category) = [some "new"]
    ∧ [docOld].map (fun d => d.category) = [some "old"] := by
  refine ⟨?_, by decide, by decide⟩
  intro h
  have h2 := congrArg (fun l => l.map (fun d : RepositoryAnalysisRecord => d.category)) h
  revert h2
  decide

/-- C8 amended: the merge overwrites exactly the `category` field of each
retrieved document in place — the batch after the loop has the same length
and order, every field other than `category` of every record is unchanged,
and `category` becomes the index's value for the record's name (null when
absent).  The merged batch and the retrieved batch are the same records;
no copy is made (only the external store is untouched, the queries being
read-only). -/
theorem merge_frame_spec :
    ∀ (batch : List RepositoryAnalysisRecord) (idx : List (String × Option String)),
      (mergeCategories batch idx).length = batch.length
      ∧ ∀ i : Fin batch.length,
          ∃ hi : i.val < (mergeCategories batch idx).length,
            ((mergeCategories batch idx).get ⟨i.val, hi⟩).category
                = mergedCategory idx (batch.get i)
            ∧ ((mergeCategories batch idx).get ⟨i.val, hi⟩).full_name = (batch.get i).full_name
            ∧ ((mergeCategories batch idx).get ⟨i.val, hi⟩).author = (batch.get i).author
            ∧ ((mergeCategories batch idx).get ⟨i.val, hi⟩).description
                = (batch.get i).description
            ∧ ((mergeCategories batch idx).get ⟨i.val, hi⟩).url = (batch.get i).url
            ∧ ((mergeCategories batch idx).get ⟨i.val, hi⟩).start_stars
                = (batch.get i).start_stars
            ∧ ((mergeCategories batch idx).get ⟨i.val, hi⟩).end_stars = (batch.get i).end_stars
            ∧ ((mergeCategories batch idx).get ⟨i.val, hi⟩).star_growth
                = (batch.get i).star_growth
            ∧ ((mergeCategories batch idx).get ⟨i.val, hi⟩).growth_per_day
                = (batch.get i).growth_per_day
            ∧ ((mergeCategories batch idx).get ⟨i.val, hi⟩).growth_percent
                = (batch.get i).growth_percent
            ∧ ((mergeCategories batch idx).get ⟨i.val, hi⟩).analysis_date
                = (batch.get i).analysis_date
            ∧ ((mergeCategories batch idx).get ⟨i.val, hi⟩).analysis_period_days
                = (batch.get i).analysis_period_days
            ∧ ((mergeCategories batch idx).get ⟨i.val, hi⟩).analysis_start_date
                = (batch.get i).analysis_start_date
            ∧ ((mergeCategories batch idx).get ⟨i.val, hi⟩).analysis_end_date
                = (batch.get i).analysis_end_date := by
  intro batch idx
  have hlen : (mergeCategories batch idx).length = batch.length := by
    simp [mergeCategories]
  refine ⟨hlen, fun i => ⟨by omega, ?_⟩⟩
  have hget : (mergeCategories batch idx).get ⟨i.val, by omega⟩
      = { batch.get i with category := mergedCategory idx (batch.get i) } := by
    simp [mergeCategories, List.get_eq_getElem, List.getElem_map]
  rw [hget]
  exact ⟨rfl, rfl, rfl, rfl, rfl, rfl, rfl, rfl, rfl, rfl, rfl, rfl, rfl, rfl⟩

/-- Witness for C8's amended frame statement at the concrete batch
`[docOld]` and index `idxNew`. -/
theorem merge_frame_spec_witness :
    (mergeCategories [docOld] idxNew).length = 1
    ∧ ∃ hi : (0 : ℕ) < (mergeCategories [docOld] idxNew).length,
        ((mergeCategories [docOld] idxNew).get ⟨0, hi⟩).category
            = mergedCategory idxNew docOld
        ∧ ((mergeCategories [docOld] idxNew).get ⟨0, hi⟩).full_name = docOld.full_name := by
  obtain ⟨hlen, hall⟩ := merge_frame_spec [docOld] idxNew
  obtain ⟨hi, h1, h2, _⟩ := hall ⟨0, by decide⟩
  exact ⟨hlen, hi, h1, h2⟩

/-! ## Claim C9 — records lacking `full_name` -/

/-- Counterexample to C9: a document lacking `full_name` is *not* dropped
by the merge — the merged batch still contains it (with a null category).
The claim's "skip the record" policy is not what the code does. -/
theorem missing_full_name_not_dropped :
    (mergeCategories [docNoName] idxNew).length = 1
    ∧ ∃ r ∈ mergeCategories [docNoName] idxNew, r.full_name = none := by
  refine ⟨by decide, ?_⟩
  exact ⟨{ docNoName with category := none }, by decide, by decide⟩

/-- C9 amended: a record lacking `full_name` is retained — it takes the
`else` branch (`None` is not a key of the index) and gets a null
category — and the rest of the batch is processed normally: the merge
never aborts and preserves the batch's length. -/
theorem missing_full_name_kept :
    ∀ (batch : List RepositoryAnalysisRecord) (idx : List (String × Option String)),
      (mergeCategories batch idx).length = batch.length
      ∧ ∀ d ∈ batch, d.full_name = none →
          { d with category := none } ∈ mergeCategories batch idx := by
  intro batch idx
  refine ⟨by simp [mergeCategories], fun d hd hname => ?_⟩
  have h : ({ d with category := none } : RepositoryAnalysisRecord)
      = { d with category := mergedCategory idx d } := by
    simp [mergedCategory, hname]
  rw [h]
  exact List.mem_map_of_mem _ hd

/-- Witness for C9's amended statement: the nameless document survives the
merge of the two-record batch `[docNoName, docOld]`, and the batch keeps
its length. -/
theorem missing_full_name_kept_witness :
    (mergeCategories [docNoName, docOld] idxNew).length = 2
    ∧ { docNoName with category := none } ∈ mergeCategories [docNoName, docOld] idxNew := by
  obtain ⟨hlen, hkeep⟩ := missing_full_name_kept [docNoName, docOld] idxNew
  exact ⟨hlen, hkeep docNoName (by simp) (by decide)⟩

/-! ## Claim C3 — the three numeric threshold filters -/

/-- C3: each threshold filter is a pass-through at its default 0 (the
`if min_... > 0` guard skips the filter entirely, so negative values also
pass), and when raised above 0 keeps exactly the records whose column is
`>=` the threshold; the three predicates compose by logical AND.  The last
conjunct records that on a finite cell — every cell after normalization —
the column comparison is the plain `>=`. -/
theorem threshold_filters_spec :
    ∀ (df : List RepositoryAnalysisRecord) (g : ℚ) (s e : ℤ),
      applyThresholdFilters df 0 0 0 = df
      ∧ (∀ r, r ∈ applyThresholdFilters df g s e ↔
          r ∈ df ∧ (0 < g → fge r.growth_percent g = true)
            ∧ (0 < s → fge r.star_growth (s : ℚ) = true)
            ∧ (0 < e → fge r.end_stars (e : ℚ) = true))
      ∧ (∀ (q t : ℚ), fge (.num q) t = true ↔ t ≤ q) := by
  intro df g s e
  refine ⟨by simp [applyThresholdFilters], fun r => ?_, fun q t => by simp [fge]⟩
  unfold applyThresholdFilters
  by_cases hg : 0 < g <;> by_cases hs : 0 < s <;> by_cases he : 0 < e <;>
    simp [hg, hs, he, List.mem_filter, and_assoc] <;> tauto

/-- Witness for C3, end-to-end scenario 3: filtering at
`min_growth_percent = 50` on rows with growth percents 30 and 70 keeps
exactly the 70 row (the star thresholds stay at their defaults). -/
theorem threshold_filters_spec_witness :
    row70 ∈ applyThresholdFilters [row30, row70] 50 0 0
    ∧ row30 ∉ applyThresholdFilters [row30, row70] 50 0 0 := by
  have h := (threshold_filters_spec [row30, row70] 50 0 0).2.1
  refine ⟨(h row70).mpr (by decide), fun hmem => ?_⟩
  have h30 := (h row30).mp hmem
  revert h30
  decide

/-! ## Shared lemmas about the stable descending sort -/

theorem insertDesc_perm {α : Type} (m : α → ℚ) (x : α) (l : List α) :
    (insertDesc m x l).Perm (x :: l) := by
  induction l with
  | nil => exact List.Perm.refl _
  | cons y ys ih =>
    unfold insertDesc
    split
    · exact List.Perm.refl _
    · exact (ih.cons y).trans (List.Perm.swap x y ys)

theorem sortDesc_perm {α : Type} (m : α → ℚ) (l : List α) :
    (sortDesc m l).Perm l := by
  induction l with
  | nil => exact List.Perm.refl _
  | cons x xs ih => exact (insertDesc_perm m x (sortDesc m xs)).trans (ih.cons x)

theorem sortDesc_length {α : Type} (m : α → ℚ) (l : List α) :
    (sortDesc m l).length = l.length :=
  (sortDesc_perm m l).length_eq

theorem sorted_insertDesc {α : Type} (m : α → ℚ) (x : α) (l : List α)
    (h : List.Sorted (fun a b => m b ≤ m a) l) :
    List.Sorted (fun a b => m b ≤ m a) (insertDesc m x l) := by
  induction l with
  | nil => simp [insertDesc]
  | cons y ys ih =>
    rw [List.sorted_cons] at h
    unfold insertDesc
    split
    · rename_i hyx
      rw [List.sorted_cons]
      refine ⟨fun b hb => ?_, List.sorted_cons.2 h⟩
      rcases List.mem_cons.1 hb with rfl | hb
      · exact hyx
      · exact (h.1 b hb).trans hyx
    · rename_i hyx
      rw [List.sorted_cons]
      refine ⟨fun b hb => ?_, ih h.2⟩
      rcases List.mem_cons.1 ((insertDesc_perm m x ys).mem_iff.1 hb) with rfl | hb2
      · exact le_of_not_le hyx
      · exact h.1 b hb2

theorem sorted_sortDesc {α : Type} (m : α → ℚ) (l : List α) :
    List.Sorted (fun a b => m b ≤ m a) (sortDesc m l) := by
  induction l with
  | nil => simp [sortDesc]
  | cons x xs ih => exact sorted_insertDesc m x (sortDesc m xs) ih

theorem insertDesc_filter_key {α : Type} (m : α → ℚ) (x : α) (l : List α) (q : ℚ) :
    (insertDesc m x l).filter (fun y => decide (m y = q))
      = (if m x = q then [x] else []) ++ l.filter (fun y => decide (m y = q)) := by
  induction l with
  | nil => by_cases hx : m x = q <;> simp [insertDesc, hx]
  | cons y ys ih =>
    unfold insertDesc
    split
    · by_cases hx : m x = q <;> simp [List.filter_cons, hx]
    · rename_i hyx
      by_cases hy : m y = q
      · have hx : ¬ m x = q := fun hxq => hyx ((hy.trans hxq.symm).le)
        simp [List.filter_cons, hy, hx, ih]
      · simp [List.filter_cons, hy, ih]

theorem sortDesc_filter_key {α : Type} (m : α → ℚ) (l : List α) (q : ℚ) :
    (sortDesc m l).filter (fun y => decide (m y = q))
      = l.filter (fun y => decide (m y = q)) := by
  induction l with
  | nil => rfl
  | cons x xs ih =>
    unfold sortDesc
    rw [insertDesc_filter_key, ih]
    by_cases hx : m x = q <;> simp [List.filter_cons, hx]

/-! ## Claim C7 — top-N ranking -/

/-- C7: for either metric, `topN` returns exactly `min n |batch|` records,
in descending metric order; ties keep the original batch order — stated in
general as: restricting the sorted sequence to the rows of any single
metric value gives exactly those rows in their original order — and in
particular two records tied on the metric in original order `[X, Y]` give
`topN _ _ 1 = [X]` (first-seen wins). -/
theorem topN_spec :
    ∀ (metric : TopMetric) (df : List RepositoryAnalysisRecord) (n : ℕ),
      (topN df metric n).length = min n df.length
      ∧ List.Sorted (fun a b => metricVal metric b ≤ metricVal metric a) (topN df metric n)
      ∧ (∀ q : ℚ, (sortDesc (metricVal metric) df).filter
            (fun r => decide (metricVal metric r = q))
          = df.filter (fun r => decide (metricVal metric r = q)))
      ∧ (∀ X Y, metricVal metric X = metricVal metric Y →
          topN [X, Y] metric 1 = [X]) := by
  intro metric df n
  refine ⟨?_, ?_, sortDesc_filter_key (metricVal metric) df, fun X Y h => ?_⟩
  · rw [topN, List.length_take, sortDesc_length]
  · exact (sorted_sortDesc (metricVal metric) df).sublist (List.take_sublist n _)
  · simp [topN, sortDesc, insertDesc, h.symm.le]

/-- Witness for C7, end-to-end scenario 4: two records tied at
`star_growth = 100` in original order `[rowX, rowY]`; the top-1 by star
growth is `[rowX]`. -/
theorem topN_spec_witness :
    topN [rowX, rowY] TopMetric.starGrowth 1 = [rowX] :=
  (topN_spec TopMetric.starGrowth [rowX, rowY] 1).2.2.2 rowX rowY (by decide)

/-! ## Claim C4 — the category filter

Hypotheses encode the data model's canonical form (stored categories are
lower-case, so `isin` against the lowered selections is exactly the
case-insensitive comparison) and the multiselect widget's contract (the
supplied strings are distinct selections naming categories present in the
batch). -/

/-- C4: with categories stored in canonical lower case and the selections
drawn without duplicates from the categories present, the category filter
passes every record through when the selection is absent (empty) or names
the full set of categories present, and otherwise keeps exactly the
records whose category is, case-insensitively, among the selected
strings (a null category never matches). -/
theorem category_filter_spec :
    ∀ (df : List RepositoryAnalysisRecord) (selected : List String),
      (∀ r ∈ df, r.category.map pyLower = r.category) →
      (selected.map pyLower).Nodup →
      (∀ s ∈ selected, pyLower s ∈ categoriesPresent df) →
      ( (selected = [] → applyCategoryFilter df selected = df)
        ∧ ((∀ c ∈ categoriesPresent df, ∃ s ∈ selected, pyLower s = c) →
            applyCategoryFilter df selected = df)
        ∧ (selected ≠ [] →
            ¬ (∀ c ∈ categoriesPresent df, ∃ s ∈ selected, pyLower s = c) →
            ∀ r, r ∈ applyCategoryFilter df selected ↔
              r ∈ df ∧ ∃ c, r.category = some c
                ∧ ∃ s ∈ selected, pyLower s = pyLower c) ) := by
  intro df selected hcanon hnodup hsel
  have hsub : selected.map pyLower ⊆ categoriesPresent df := by
    intro x hx
    obtain ⟨s, hs, rfl⟩ := List.mem_map.1 hx
    exact hsel s hs
  refine ⟨fun hempty => by simp [applyCategoryFilter, hempty], ?_, ?_⟩
  · intro hfull
    have hsup : categoriesPresent df ⊆ selected.map pyLower := by
      intro c hc
      obtain ⟨s, hs, hls⟩ := hfull c hc
      exact List.mem_map.2 ⟨s, hs, hls⟩
    have hperm : (selected.map pyLower).Perm (categoriesPresent df) :=
      (List.subperm_of_subset hnodup hsub).antisymm
        (List.subperm_of_subset (List.nodup_dedup _) hsup)
    have hlen : selected.length = (categoriesPresent df).length := by
      have h2 := hperm.length_eq
      rw [List.length_map] at h2
      exact h2
    have hcond : ¬ (selected ≠ [] ∧ selected.length < (categoriesPresent df).length) := by
      rintro ⟨-, hlt⟩
      omega
    simp [applyCategoryFilter, hcond]
  · intro hne hnotfull r
    have hssub : List.Subperm (selected.map pyLower) (categoriesPresent df) :=
      List.subperm_of_subset hnodup hsub
    have hlt : selected.length < (categoriesPresent df).length := by
      have hle : (selected.map pyLower).length ≤ (categoriesPresent df).length :=
        hssub.length_le
      rw [List.length_map] at hle
      rcases lt_or_eq_of_le hle with h | h
      · exact h
      · exfalso
        have hperm : (selected.map pyLower).Perm (categoriesPresent df) :=
          hssub.perm_of_length_le (by rw [List.length_map]; omega)
        refine hnotfull (fun c hc => ?_)
        obtain ⟨s, hs, hps⟩ := List.mem_map.1 (hperm.symm.subset hc)
        exact ⟨s, hs, hps⟩
    have hcond : selected ≠ [] ∧ selected.length < (categoriesPresent df).length :=
      ⟨hne, hlt⟩
    simp only [applyCategoryFilter]
    rw [if_pos hcond, List.mem_filter]
    constructor
    · rintro ⟨hrdf, hpred⟩
      refine ⟨hrdf, ?_⟩
      cases hc : r.category with
      | none => rw [hc] at hpred; simp at hpred
      | some c =>
        rw [hc] at hpred
        simp at hpred
        obtain ⟨s, hs, hps⟩ := hpred
        have hcc : pyLower c = c := by
          have h1 := hcanon r hrdf
          rw [hc] at h1
          simpa using h1
        exact ⟨c, rfl, s, hs, by rw [hps, hcc]⟩
    · rintro ⟨hrdf, c, hc, s, hs, hlow⟩
      refine ⟨hrdf, ?_⟩
      rw [hc]
      have hcc : pyLower c = c := by
        have h1 := hcanon r hrdf
        rw [hc] at h1
        simpa using h1
      simp
      exact ⟨s, hs, by rw [hlow, hcc]⟩

/-- Witness for C4: batch with categories "ml" and "web", selection
`["Ml"]` (the capitalized display form): the "ml" record passes, the
"web" record is removed. -/
theorem category_filter_spec_witness :
    rowMl ∈ applyCategoryFilter [rowMl, rowWeb] ["Ml"]
    ∧ rowWeb ∉ applyCategoryFilter [rowMl, rowWeb] ["Ml"] := by
  have h := (category_filter_spec [rowMl, rowWeb] ["Ml"]
      (by decide) (by decide) (by decide)).2.2 (by decide) (by decide)
  constructor
  · exact (h rowMl).mpr ⟨by decide, "ml", by decide, "Ml", by decide, by decide⟩
  · intro hmem
    obtain ⟨-, c, hc, s, hs, hlow⟩ := (h rowWeb).mp hmem
    have hc2 : "web" = c := by simpa [rowWeb, row0] using hc
    have hs2 : s = "Ml" := by simpa using hs
    rw [← hc2] at hlow
    rw [hs2] at hlow
    revert hlow
    decide

/-! ## Shared lemmas about 1-decimal rounding and category counts -/

theorem pyRound1_int (z : ℤ) : pyRound1 ((z : ℚ)) = (z : ℚ) := by
  unfold pyRound1
  rw [show ((z : ℚ) * 10) = ((z * 10 : ℤ) : ℚ) by push_cast; ring, round_intCast]
  push_cast
  field_simp

theorem abs_pyRound1_sub (q : ℚ) : |pyRound1 q - q| ≤ 1 / 20 := by
  have h := abs_sub_round (q * 10)
  have heq : pyRound1 q - q = (((round (q * 10) : ℤ) : ℚ) - q * 10) / 10 := by
    unfold pyRound1
    ring
  rw [heq, abs_div, abs_of_pos (by norm_num : (0:ℚ) < 10)]
  rw [abs_sub_comm] at h
  linarith

theorem sum_pyRound1_close (xs : List ℚ) :
    |(xs.map pyRound1).sum - xs.sum| ≤ (xs.length : ℚ) * (1 / 20) := by
  induction xs with
  | nil => simp
  | cons x xs ih =>
    have hx := abs_pyRound1_sub x
    have htri : |(pyRound1 x + (xs.map pyRound1).sum) - (x + xs.sum)|
        ≤ |pyRound1 x - x| + |(xs.map pyRound1).sum - xs.sum| := by
      have harr : (pyRound1 x + (xs.map pyRound1).sum) - (x + xs.sum)
          = (pyRound1 x - x) + ((xs.map pyRound1).sum - xs.sum) := by ring
      rw [harr]
      exact abs_add _ _
    simp only [List.map_cons, List.sum_cons, List.length_cons]
    refine le_trans htri ?_
    push_cast
    linarith

theorem countCat_eq_count (df : List RepositoryAnalysisRecord) (c : String) :
    countCat df c = (df.filterMap (fun r => r.category)).count c := by
  induction df with
  | nil => rfl
  | cons r df ih =>
    cases hrc : r.category with
    | none =>
      simp only [countCat, List.filter_cons, List.filterMap_cons, hrc] at ih ⊢
      simpa using ih
    | some c2 =>
      by_cases h : c2 = c
      · subst h
        simp only [countCat, List.filter_cons, List.filterMap_cons, hrc] at ih ⊢
        simp [List.count_cons, ih]
      · simp only [countCat, List.filter_cons, List.filterMap_cons, hrc] at ih ⊢
        simp [List.count_cons, h, ih]

theorem sum_countCat_cast (df : List RepositoryAnalysisRecord) :
    ((df.filterMap (fun r => r.category)).dedup.map
        (fun c => (countCat df c : ℚ))).sum
      = ((df.filterMap (fun r => r.category)).length : ℚ) := by
  have h1 : (((df.filterMap (fun r => r.category)).dedup.map
      (fun c => (df.filterMap (fun r => r.category)).count c)).sum)
      = (df.filterMap (fun r => r.category)).length :=
    List.sum_map_count_dedup_eq_length _
  have h2 : ((df.filterMap (fun r => r.category)).dedup.map
      (fun c => (countCat df c : ℚ)))
      = (((df.filterMap (fun r => r.category)).dedup.map
          (fun c => (df.filterMap (fun r => r.category)).count c)).map
            (fun n : ℕ => (n : ℚ))) := by
    rw [List.map_map]
    exact List.map_congr_left fun c _ => by rw [Function.comp_apply, countCat_eq_count]
  rw [h2, ← Nat.cast_list_sum, h1]

theorem breakdown_length (df : List RepositoryAnalysisRecord) :
    (categoryBreakdown df).length = (categoriesPresent df).length := by
  simp [categoryBreakdown, sortDesc_length]

theorem breakdown_percentage_sum (df : List RepositoryAnalysisRecord) :
    ((categoryBreakdown df).map (fun e => e.percentage)).sum
      = (((categoriesPresent df).map
          (fun c => (countCat df c : ℚ) / (df.length : ℚ) * 100)).map pyRound1).sum := by
  have hperm : ((categoryBreakdown df).map (fun e => e.percentage)).Perm
      (((categoriesPresent df).map (mkCategoryEntry df)).map (fun e => e.percentage)) :=
    (sortDesc_perm _ _).map _
  rw [hperm.sum_eq, List.map_map, List.map_map]
  rfl

theorem filterMap_category_length_of_all_some (df : List RepositoryAnalysisRecord)
    (h : ∀ r ∈ df, r.category ≠ none) :
    (df.filterMap (fun r => r.category)).length = df.length := by
  induction df with
  | nil => rfl
  | cons r df ih =>
    cases hrc : r.category with
    | none => exact absurd hrc (h r (by simp))
    | some c =>
      simp only [List.filterMap_cons, hrc, List.length_cons]
      rw [ih (fun x hx => h x (by simp [hx]))]

/-! ## Claim C1 — the percent-of-star-flow column at zero total star flow -/

/-- C1 (code bug): the source computes
`(category_stats['Star Flow'] / total_star_flow * 100).round(1)` with no
guard on `total_star_flow`.  On a batch whose only category has star flow
0 the total is 0 and the column is NaN (`0/0`); on a batch whose two
categories' flows cancel (+5 and -5) the column is `+inf` / `-inf`.  The
spec's claim — an explicit branch reporting 0 for every category — does
not hold of the code. -/
theorem pct_star_flow_unguarded :
    totalStarFlow dfZeroFlow = 0
    ∧ mkCategoryEntry dfZeroFlow "ml" ∈ categoryBreakdown dfZeroFlow
    ∧ (mkCategoryEntry dfZeroFlow "ml").pctStarFlow = FloatVal.nan
    ∧ totalStarFlow dfCancelFlow = 0
    ∧ mkCategoryEntry dfCancelFlow "ml" ∈ categoryBreakdown dfCancelFlow
    ∧ mkCategoryEntry dfCancelFlow "web" ∈ categoryBreakdown dfCancelFlow
    ∧ (mkCategoryEntry dfCancelFlow "ml").pctStarFlow = FloatVal.inf
    ∧ (mkCategoryEntry dfCancelFlow "web").pctStarFlow = FloatVal.neginf
    ∧ FloatVal.nan ≠ FloatVal.num 0 := by
  have hcats1 : categoriesPresent dfZeroFlow = ["ml"] := by
    simp [categoriesPresent, dfZeroFlow]
  have hcats2 : categoriesPresent dfCancelFlow = ["ml", "web"] := by
    simp [categoriesPresent, dfCancelFlow]
  have hflow1 : starFlowCat dfZeroFlow "ml" = 0 := by
    simp [starFlowCat, dfZeroFlow, qVal]
  have htot1 : totalStarFlow dfZeroFlow = 0 := by
    simp [totalStarFlow, hcats1, hflow1]
  have hflow2m : starFlowCat dfCancelFlow "ml" = 5 := by
    simp [starFlowCat, dfCancelFlow, qVal]
  have hflow2w : starFlowCat dfCancelFlow "web" = -5 := by
    simp [starFlowCat, dfCancelFlow, qVal]
  have htot2 : totalStarFlow dfCancelFlow = 0 := by
    simp [totalStarFlow, hcats2, hflow2m, hflow2w]
  refine ⟨htot1, ?_, ?_, htot2, ?_, ?_, ?_, ?_, by decide⟩
  · exact (sortDesc_perm _ _).mem_iff.2
      (List.mem_map_of_mem _ (by rw [hcats1]; simp))
  · show fround1 (fscale100 (fdiv (starFlowCat dfZeroFlow "ml") (totalStarFlow dfZeroFlow)))
        = FloatVal.nan
    rw [hflow1, htot1]
    simp [fdiv, fscale100, fround1]
  · exact (sortDesc_perm _ _).mem_iff.2
      (List.mem_map_of_mem _ (by rw [hcats2]; simp))
  · exact (sortDesc_perm _ _).mem_iff.2
      (List.mem_map_of_mem _ (by rw [hcats2]; simp))
  · show fround1 (fscale100 (fdiv (starFlowCat dfCancelFlow "ml") (totalStarFlow dfCancelFlow)))
        = FloatVal.inf
    rw [hflow2m, htot2]
    norm_num [fdiv, fscale100, fround1]
  · show fround1 (fscale100 (fdiv (starFlowCat dfCancelFlow "web") (totalStarFlow dfCancelFlow)))
        = FloatVal.neginf
    rw [hflow2w, htot2]
    norm_num [fdiv, fscale100, fround1]

/-! ## Claim C2 — the category breakdown's rows and percentages -/

/-- Counterexample to C2: in the two-row batch `dfNullCat` — categories
`some "ml"` and `none`, two distinct category values — the breakdown has a
single entry (`value_counts()` drops the null category), and the
`percent_of_rows` values sum to 50, far outside 100 ± 0.1. -/
theorem category_breakdown_claim_fails :
    (categoryBreakdown dfNullCat).length = 1
    ∧ ((dfNullCat.map (fun r => r.category)).dedup).length = 2
    ∧ ((categoryBreakdown dfNullCat).map (fun e => e.percentage)).sum = 50
    ∧ ¬ |((categoryBreakdown dfNullCat).map (fun e => e.percentage)).sum - 100| ≤ 1 / 10 := by
  have hcats : categoriesPresent dfNullCat = ["ml"] := by
    simp [categoriesPresent, dfNullCat]
  have hbd : categoryBreakdown dfNullCat = [mkCategoryEntry dfNullCat "ml"] := by
    simp [categoryBreakdown, hcats, sortDesc, insertDesc]
  have hcount : countCat dfNullCat "ml" = 1 := by
    simp [countCat, dfNullCat]
  have hpct : (mkCategoryEntry dfNullCat "ml").percentage = 50 := by
    show pyRound1 ((countCat dfNullCat "ml" : ℚ) / (dfNullCat.length : ℚ) * 100) = 50
    have hlen : ((dfNullCat.length : ℕ) : ℚ) = 2 := by simp [dfNullCat]
    rw [hcount, hlen]
    have harg : ((1 : ℕ) : ℚ) / 2 * 100 = ((50 : ℤ) : ℚ) := by norm_num
    rw [harg, pyRound1_int]
    norm_num
  have hsum : ((categoryBreakdown dfNullCat).map (fun e => e.percentage)).sum = 50 := by
    rw [hbd]
    simpa using hpct
  refine ⟨by rw [hbd]; rfl, by decide, hsum, ?_⟩
  rw [hsum]
  norm_num

/-- C2 amended: the breakdown has exactly one entry per distinct *non-null*
category present (records with a null category get no entry but still
count in the denominator); each entry's `percent_of_rows` is
`round1(100 * count / |batch|)`; the percentages sum to
`100 * (non-null row count) / |batch|` up to a rounding error of at most
0.05 per entry — in particular, when every record carries a category they
sum to 100 within `0.05 * (number of entries)`. -/
theorem category_breakdown_amended :
    ∀ df : List RepositoryAnalysisRecord, df ≠ [] →
      ((categoryBreakdown df).map (fun e => e.category)).Perm
          ((categoriesPresent df).map pyCapitalize)
      ∧ (∀ e ∈ categoryBreakdown df, ∃ c ∈ categoriesPresent df,
          e = mkCategoryEntry df c
          ∧ e.count = countCat df c
          ∧ e.percentage = pyRound1 ((countCat df c : ℚ) / (df.length : ℚ) * 100))
      ∧ |((categoryBreakdown df).map (fun e => e.percentage)).sum
            - 100 * ((df.filterMap (fun r => r.category)).length : ℚ) / (df.length : ℚ)|
          ≤ ((categoryBreakdown df).length : ℚ) * (1 / 20)
      ∧ ((∀ r ∈ df, r.category ≠ none) →
          |((categoryBreakdown df).map (fun e => e.percentage)).sum - 100|
            ≤ ((categoryBreakdown df).length : ℚ) * (1 / 20)) := by
  intro df hdf
  have hperm1 : ((categoryBreakdown df).map (fun e => e.category)).Perm
      (((categoriesPresent df).map (mkCategoryEntry df)).map (fun e => e.category)) :=
    (sortDesc_perm _ _).map _
  have heq1 : (((categoriesPresent df).map (mkCategoryEntry df)).map (fun e => e.category))
      = (categoriesPresent df).map pyCapitalize := by
    rw [List.map_map]
    rfl
  have hxs_sum : ((categoriesPresent df).map
        (fun c => (countCat df c : ℚ) / (df.length : ℚ) * 100)).sum
      = 100 * ((df.filterMap (fun r => r.category)).length : ℚ) / (df.length : ℚ) := by
    have hpoint : ((categoriesPresent df).map
          (fun c => (countCat df c : ℚ) / (df.length : ℚ) * 100))
        = ((categoriesPresent df).map
            (fun c => (countCat df c : ℚ) * (100 / (df.length : ℚ)))) :=
      List.map_congr_left (fun c _ => by ring)
    rw [hpoint, List.sum_map_mul_right]
    rw [show ((categoriesPresent df).map (fun c => (countCat df c : ℚ)))
        = ((df.filterMap (fun r => r.category)).dedup.map (fun c => (countCat df c : ℚ)))
      from rfl]
    rw [sum_countCat_cast]
    ring
  have hc3 : |((categoryBreakdown df).map (fun e => e.percentage)).sum
        - 100 * ((df.filterMap (fun r => r.category)).length : ℚ) / (df.length : ℚ)|
      ≤ ((categoryBreakdown df).length : ℚ) * (1 / 20) := by
    rw [breakdown_percentage_sum df, ← hxs_sum]
    refine le_trans (sum_pyRound1_close _) ?_
    rw [List.length_map, breakdown_length]
  refine ⟨heq1 ▸ hperm1, ?_, hc3, ?_⟩
  · intro e he
    have he2 : e ∈ (categoriesPresent df).map (mkCategoryEntry df) :=
      (sortDesc_perm _ _).subset he
    obtain ⟨c, hc, rfl⟩ := List.mem_map.1 he2
    exact ⟨c, hc, rfl, rfl, rfl⟩
  · intro hall
    have hMN : (df.filterMap (fun r => r.category)).length = df.length :=
      filterMap_category_length_of_all_some df hall
    have hN : ((df.length : ℕ) : ℚ) ≠ 0 :=
      Nat.cast_ne_zero.2 (fun h => hdf (List.length_eq_zero.1 h))
    have h100 : 100 * ((df.filterMap (fun r => r.category)).length : ℚ) / (df.length : ℚ)
        = 100 := by
      rw [hMN]
      field_simp
    rw [← h100]
    exact hc3

/-- Witness for C2's amended statement at the batch `dfNullCat` (one "ml"
row, one null-category row): the rounded percentages sum to
`100 * 1 / 2` within the per-entry rounding tolerance. -/
theorem category_breakdown_amended_witness :
    |((categoryBreakdown dfNullCat).map (fun e => e.percentage)).sum
        - 100 * ((dfNullCat.filterMap (fun r => r.category)).length : ℚ) / (dfNullCat.length : ℚ)|
      ≤ ((categoryBreakdown dfNullCat).length : ℚ) * (1 / 20) :=
  (category_breakdown_amended dfNullCat (by simp [dfNullCat])).2.2.1
